import Mathlib

/-!
Verification development for the PrimeTrade task-management backend
(Express + Mongoose REST API).

The embedding below translates the route handlers of
`backend/routes/tasks.js`, `backend/routes/auth.js` and
`backend/routes/users.js` into pure Lean functions over explicit state.
The Mongoose models (`backend/models/Task.js`, `backend/models/User.js`)
are not part of the sources available here; definitions that stand in for
them are marked `Modelled from the spec:` and follow the design document's
data-model section (section 3) and component design (section 4).

Conventions:
* MongoDB object ids are modelled as `Nat`.
* A collection is a `List` in insertion order; `find?` models MongoDB's
  first-match semantics for single-document operations.
* Timestamps are `Nat` (milliseconds); the clock value is passed in.
* HTTP outcomes are inductive result types; the mapping of constructors to
  status codes copies the literal codes of the handlers.
-/

namespace TodoApp

/-- Task status enum of the Task schema (spec section 3: todo | in-progress
| done, default todo). -/
inductive Status where
  | todo
  | inProgress
  | done
deriving DecidableEq, Repr

/-- Task priority enum of the Task schema (spec section 3: low | medium |
high, default medium). -/
inductive Priority where
  | low
  | medium
  | high
deriving DecidableEq, Repr

/-- The string stored in MongoDB for a status value. -/
def statusToString : Status → String
  | .todo => "todo"
  | .inProgress => "in-progress"
  | .done => "done"

/-- Mongoose cast of a client string to the status enum. -/
def statusOfString : String → Option Status
  | "todo" => some Status.todo
  | "in-progress" => some Status.inProgress
  | "done" => some Status.done
  | _ => none

/-- The string stored in MongoDB for a priority value.  Sorting by
priority compares these strings lexicographically, as MongoDB does. -/
def priorityToString : Priority → String
  | .low => "low"
  | .medium => "medium"
  | .high => "high"

/-- Mongoose cast of a client string to the priority enum. -/
def priorityOfString : String → Option Priority
  | "low" => some Priority.low
  | "medium" => some Priority.medium
  | "high" => some Priority.high
  | _ => none

/-- Modelled from the spec: the bcrypt password hash produced by the
missing `models/User.js` pre-save hook.  The spec (section 4.1) requires a
salted one-way function; collisions are cryptographically negligible, so
the hash is modelled as an opaque injective wrapper around the plaintext.
The wrapper is never serialized to clients (see `userJson`). -/
structure Hash where
  source : String
deriving DecidableEq, Repr

/-- Modelled from the spec: hashing a plaintext password (bcrypt in the
missing `models/User.js`). -/
def hashPw (p : String) : Hash := ⟨p⟩

/-- Modelled from the spec: `user.comparePassword(plaintext)` of the
missing `models/User.js` — bcrypt compare of a plaintext against the
stored hash. -/
def comparePassword (stored : Hash) (plaintext : String) : Bool :=
  stored == hashPw plaintext

/-- User role enum (spec section 3: standard/admin). -/
inductive Role where
  | standard
  | admin
deriving DecidableEq, Repr

/-- A persisted user document (spec section 3 data model; the schema file
`models/User.js` is not in the sources). -/
structure User where
  id : Nat
  name : String
  email : String
  password : Hash
  bio : String := ""
  role : Role := .standard
  createdAt : Nat := 0
deriving DecidableEq, Repr

/-- A persisted task document (spec section 3 data model; the schema file
`models/Task.js` is not in the sources).  `user` is the owning user
reference. -/
structure Task where
  id : Nat
  user : Nat
  title : String
  description : Option String := none
  status : Status := .todo
  priority : Priority := .medium
  dueDate : Option String := none
  tags : List String := []
  createdAt : Nat := 0
  updatedAt : Nat := 0
deriving DecidableEq, Repr

/-- The tasks collection plus the id generator (MongoDB assigns fresh
`_id`s; modelled as a counter). -/
structure TaskState where
  tasks : List Task
  nextId : Nat
deriving DecidableEq, Repr

/-- The users collection plus the id generator. -/
structure AuthState where
  users : List User
  nextId : Nat
deriving DecidableEq, Repr

/-- One entry of the field-level validation error list that the handlers
send with status 400: `{ field: e.path, message: e.msg }`. -/
structure FieldError where
  field : String
  message : String
deriving DecidableEq, Repr

/- ## String helpers modelling the express-validator checks

These work on the character list of a string so that every validator is
kernel-computable on concrete inputs. -/

/-- The whitespace characters JavaScript's `trim` removes (the common
ones; exotic Unicode spaces are outside the modelled input set). -/
def jsWhitespace (c : Char) : Bool :=
  c == ' ' || c == '\t' || c == '\n' || c == '\r'

/-- JavaScript `String.prototype.trim` / the `trim()` sanitizer. -/
def jsTrim (s : String) : String :=
  ⟨((s.toList.dropWhile jsWhitespace).reverse.dropWhile jsWhitespace).reverse⟩

/-- Lower-casing (JavaScript `toLowerCase`, and the regex `i` flag). -/
def lowerStr (s : String) : String := ⟨s.toList.map Char.toLower⟩

/-- Emptiness test (JavaScript falsiness of a string / `notEmpty`). -/
def strEmpty (s : String) : Bool := s.toList.isEmpty

/-- Character count (JavaScript `length` on the modelled inputs). -/
def strLen (s : String) : Nat := s.toList.length

/-- Approximation of `validator.isEmail`: exactly one at-sign with a
nonempty local part and a nonempty domain containing a dot.  The claims
only need the check to be a fixed decidable predicate shared by register
and login. -/
def isEmailStr (s : String) : Bool :=
  match s.toList.splitOn '@' with
  | [l, d] => !l.isEmpty && !d.isEmpty && d.contains '.'
  | _ => false

/-- Approximation of `normalizeEmail`: lower-casing.  Both register and
login apply it, so lookups agree. -/
def normalizeEmail (s : String) : String := lowerStr s

/-- Approximation of `validator.isISO8601` on the date-only subset the
application exchanges: a `YYYY-MM-DD` shape with digit checks. -/
def isISO8601 (s : String) : Bool :=
  match s.toList with
  | [y1, y2, y3, y4, '-', m1, m2, '-', d1, d2] =>
      [y1, y2, y3, y4, m1, m2, d1, d2].all Char.isDigit
  | _ => false

/-- `matches(/\d/)` of the password validators. -/
def hasDigit (s : String) : Bool := s.toList.any Char.isDigit

/- ## A small regular-expression engine

`GET /tasks` feeds the raw `search` query string to MongoDB `$regex` and
to JavaScript `new RegExp(search, 'i')` (tasks.js lines 29-35).  The
engine below models JavaScript regular-expression semantics for the
pattern subset consisting of ordinary characters, the wildcard dot, and
the quantifiers `+`, `*`, `?` applied to a single atom.  Any other
metacharacter (`( ) [ ] { \x7d | \ ^ $`) and a quantifier with nothing to
repeat are rejected at compile time, exactly as JavaScript rejects the
lone pattern `(` with a SyntaxError.  The `i` flag is modelled by
lower-casing both the pattern and the subject. -/

/-- A regex atom: a literal character or the wildcard dot. -/
inductive RBase where
  | ch : Char → RBase
  | any : RBase
deriving DecidableEq, Repr

/-- A compiled regex token: an atom with its quantifier. -/
inductive RTok where
  | once : RBase → RTok
  | star : RBase → RTok
  | plus : RBase → RTok
  | opt : RBase → RTok
deriving DecidableEq, Repr

/-- Characters the modelled pattern subset rejects at compile time. -/
def regexMeta : List Char := ['(', ')', '[', ']', '{', '}', '|', '\\', '^', '$']

/-- Compile a pattern character list; `none` is a compile failure
(SyntaxError in JavaScript, or a construct outside the modelled subset). -/
def compileRegex : List Char → Option (List RTok)
  | [] => some []
  | [c] =>
      if c ∈ regexMeta then none
      else if c == '+' || c == '*' || c == '?' then none
      else some [RTok.once (if c == '.' then .any else .ch c)]
  | c :: q :: rest' =>
      if c ∈ regexMeta then none
      else if c == '+' || c == '*' || c == '?' then none
      else
        let b : RBase := if c == '.' then .any else .ch c
        if q == '+' then (compileRegex rest').map (RTok.plus b :: ·)
        else if q == '*' then (compileRegex rest').map (RTok.star b :: ·)
        else if q == '?' then (compileRegex rest').map (RTok.opt b :: ·)
        else (compileRegex (q :: rest')).map (RTok.once b :: ·)

/-- Does an atom accept a character? -/
def baseMatch : RBase → Char → Bool
  | .any, _ => true
  | .ch a, c => a == c

/-- One step of the matcher.  The first argument is fuel: every step
strictly decreases `toks.length + chars.length` (the plus-to-star step
keeps the token count and consumes a character), so with the fuel
`matchToks` supplies the zero branch is unreachable; fuel only makes the
recursion structural. -/
def matchToksF : Nat → List RTok → List Char → Bool
  | 0, _, _ => false
  | _ + 1, [], _ => true
  | f + 1, .once b :: ts, c :: cs => baseMatch b c && matchToksF f ts cs
  | _ + 1, .once _ :: _, [] => false
  | f + 1, .opt b :: ts, c :: cs =>
      matchToksF f ts (c :: cs) || (baseMatch b c && matchToksF f ts cs)
  | f + 1, .opt _ :: ts, [] => matchToksF f ts []
  | f + 1, .plus b :: ts, c :: cs => baseMatch b c && matchToksF f (.star b :: ts) cs
  | _ + 1, .plus _ :: _, [] => false
  | f + 1, .star b :: ts, c :: cs =>
      matchToksF f ts (c :: cs) || (baseMatch b c && matchToksF f (.star b :: ts) cs)
  | f + 1, .star _ :: ts, [] => matchToksF f ts []

/-- Does some way of consuming the character list match the whole token
list at the current position (with arbitrary trailing characters)?  This
is the existence-of-a-match semantics of `RegExp.prototype.test`. -/
def matchToks (ts : List RTok) (cs : List Char) : Bool :=
  matchToksF (ts.length + cs.length + 1) ts cs

/-- Search for a match starting at any position (the `test`/`$regex`
containment semantics). -/
def searchToks (ts : List RTok) : List Char → Bool
  | [] => matchToks ts []
  | c :: cs => matchToks ts (c :: cs) || searchToks ts cs

/-- Case-insensitive regex test of a compiled pattern against a string
(the `'i'` flag lower-cases both sides). -/
def regexTest (ts : List RTok) (s : String) : Bool :=
  searchToks ts (lowerStr s).toList

/-- Does `needle` occur as a contiguous subsequence of `hay`? -/
def containsSeq (needle : List Char) : List Char → Bool
  | [] => needle.isEmpty
  | c :: cs => needle.isPrefixOf (c :: cs) || containsSeq needle cs

/-- Literal case-insensitive substring containment.  This definition
follows the spec's words (section 4.4: search text "matches
case-insensitively against title, description, or any tag") rather than
the source, and exists only to be compared with the regex behaviour the
source actually has. -/
def literalContains (hay needle : String) : Bool :=
  containsSeq (lowerStr needle).toList (lowerStr hay).toList

/- ## Request bodies (parsed JSON)

Fields are `Option`s: `none` is an absent key.  express-validator treats
an absent required field as the empty string for validation purposes, so
the required-field chains below validate `field.getD ""`. -/

/-- Body of `POST /auth/register`. -/
structure RegisterBody where
  name : Option String := none
  email : Option String := none
  password : Option String := none
deriving DecidableEq, Repr

/-- Body of `POST /auth/login`. -/
structure LoginBody where
  email : Option String := none
  password : Option String := none
deriving DecidableEq, Repr

/-- Body of `PUT /users/password`. -/
structure PasswordBody where
  currentPassword : Option String := none
  newPassword : Option String := none
deriving DecidableEq, Repr

/-- Body of `POST /tasks` and `PUT /tasks/:id`.  The `user` field is not
part of the documented body, but a client can supply it; no validator
covers it and the create/update handlers pass the whole body through
(tasks.js lines 90-93 and 140-144). -/
structure TaskBody where
  title : Option String := none
  description : Option String := none
  status : Option String := none
  priority : Option String := none
  dueDate : Option String := none
  tags : Option (List String) := none
  user : Option Nat := none
deriving DecidableEq, Repr

/-- The `trim()` sanitizers of the task validators (title and
description); express-validator mutates the request body in place. -/
def sanitizeTaskBody (b : TaskBody) : TaskBody :=
  { b with title := b.title.map jsTrim,
           description := b.description.map jsTrim }

/- ## Validator chains -/

/-- Validator chain of `POST /auth/register` (auth.js lines 29-43),
applied to the sanitized values (name and email trimmed). -/
def registerValidationErrors (name email password : String) : List FieldError :=
  (if strEmpty name then [⟨"name", "Name is required"⟩] else [])
    ++ (if strLen name < 2 || strLen name > 50 then
          [⟨"name", "Name must be 2-50 characters"⟩] else [])
    ++ (if strEmpty email then [⟨"email", "Email is required"⟩] else [])
    ++ (if !isEmailStr email then [⟨"email", "Please provide a valid email"⟩] else [])
    ++ (if strEmpty password then [⟨"password", "Password is required"⟩] else [])
    ++ (if strLen password < 6 then
          [⟨"password", "Password must be at least 6 characters"⟩] else [])
    ++ (if !hasDigit password then
          [⟨"password", "Password must contain at least one number"⟩] else [])

/-- Validator chain of `POST /auth/login` (auth.js lines 80-88). -/
def loginValidationErrors (email password : String) : List FieldError :=
  (if strEmpty email then [⟨"email", "Email is required"⟩] else [])
    ++ (if !isEmailStr email then [⟨"email", "Please provide a valid email"⟩] else [])
    ++ (if strEmpty password then [⟨"password", "Password is required"⟩] else [])

/-- Validator chain of `PUT /users/password` (users.js lines 70-76). -/
def passwordValidationErrors (current newPw : String) : List FieldError :=
  (if strEmpty current then [⟨"currentPassword", "Current password is required"⟩] else [])
    ++ (if strLen newPw < 6 then
          [⟨"newPassword", "New password must be at least 6 characters"⟩] else [])
    ++ (if !hasDigit newPw then
          [⟨"newPassword", "New password must contain at least one number"⟩] else [])

/-- Validator chain of `POST /tasks` (tasks.js lines 69-79), applied to
the sanitized body.  `tags` only has `optional().isArray()`, which every
value of type `List String` satisfies; there is no bound on the number of
tags here. -/
def createValidationErrors (b : TaskBody) : List FieldError :=
  (if strEmpty (b.title.getD "") then [⟨"title", "Title is required"⟩] else [])
    ++ (if strLen (b.title.getD "") > 100 then
          [⟨"title", "Title cannot exceed 100 characters"⟩] else [])
    ++ (match b.description with
        | none => []
        | some d => if strLen d > 500 then [⟨"description", "Invalid value"⟩] else [])
    ++ (match b.status with
        | none => []
        | some st => if (statusOfString st).isNone then [⟨"status", "Invalid value"⟩] else [])
    ++ (match b.priority with
        | none => []
        | some pr => if (priorityOfString pr).isNone then [⟨"priority", "Invalid value"⟩] else [])
    ++ (match b.dueDate with
        | none => []
        | some d => if !isISO8601 d then [⟨"dueDate", "Invalid date format"⟩] else [])

/-- Validator chain of `PUT /tasks/:id` (tasks.js lines 122-129), applied
to the sanitized body.  All fields are optional; title must be 1-100
characters when supplied. -/
def updateValidationErrors (b : TaskBody) : List FieldError :=
  (match b.title with
   | none => []
   | some t => if strLen t < 1 || strLen t > 100 then [⟨"title", "Invalid value"⟩] else [])
    ++ (match b.description with
        | none => []
        | some d => if strLen d > 500 then [⟨"description", "Invalid value"⟩] else [])
    ++ (match b.status with
        | none => []
        | some st => if (statusOfString st).isNone then [⟨"status", "Invalid value"⟩] else [])
    ++ (match b.priority with
        | none => []
        | some pr => if (priorityOfString pr).isNone then [⟨"priority", "Invalid value"⟩] else [])
    ++ (match b.dueDate with
        | none => []
        | some d => if !isISO8601 d then [⟨"dueDate", "Invalid value"⟩] else [])

/- ## Auth and user handlers -/

/-- Serialized role string. -/
def roleToString : Role → String
  | .standard => "standard"
  | .admin => "admin"

/-- Modelled from the spec: the JSON object a user document serializes to
in responses.  The password hash is omitted: the spec (section 3) makes
the hash write-only ("never returned to clients"; read paths omit it),
which the missing `models/User.js` realizes with a non-selected field;
the login handler additionally clears `user.password` before sending. -/
def userJson (u : User) : List (String × String) :=
  [("_id", toString u.id), ("name", u.name), ("email", u.email),
   ("bio", u.bio), ("role", roleToString u.role),
   ("createdAt", toString u.createdAt)]

/-- Token issued by `generateToken` (auth.js lines 8-12): a signed JWT
embedding the user id.  The signature and expiry claim are opaque to all
claims here, so the token is modelled as an id-tagged string. -/
def mkToken (id : Nat) : String := "jwt." ++ toString id

/-- Outcome of the register and login handlers. -/
inductive AuthResult where
  | created (token : String) (user : User)
  | ok (token : String) (user : User)
  | badRequest (errors : List FieldError)
  | conflict (error : String)
  | unauthorized (error : String)
deriving DecidableEq, Repr

/-- HTTP status code of an auth outcome, as the handlers set it. -/
def AuthResult.statusCode : AuthResult → Nat
  | .created _ _ => 201
  | .ok _ _ => 200
  | .badRequest _ => 400
  | .conflict _ => 409
  | .unauthorized _ => 401

/-- Replace the first element satisfying `p` (the single-document
`findOneAndUpdate` / `save` write). -/
def replaceFirst (p : α → Bool) (x : α) : List α → List α
  | [] => []
  | y :: ys => if p y then x :: ys else y :: replaceFirst p x ys

/-- Remove the first element satisfying `p` (the single-document
`findOneAndDelete`). -/
def removeFirst (p : α → Bool) : List α → List α
  | [] => []
  | y :: ys => if p y then ys else y :: removeFirst p ys

/-- `POST /auth/register` (auth.js lines 27-74): sanitize, validate,
reject a duplicate email with 409, otherwise create the user (password
hashed by the schema pre-save hook) and answer 201 with a token. -/
def registerHandler (now : Nat) (b : RegisterBody) (s : AuthState) :
    AuthResult × AuthState :=
  let name := jsTrim (b.name.getD "")
  let emailRaw := jsTrim (b.email.getD "")
  let password := b.password.getD ""
  let errs := registerValidationErrors name emailRaw password
  if errs.isEmpty then
    let email := normalizeEmail emailRaw
    match s.users.find? (fun u => u.email == email) with
    | some _ => (.conflict "An account with this email already exists.", s)
    | none =>
        let user : User :=
          { id := s.nextId, name := name, email := email,
            password := hashPw password, createdAt := now }
        (.created (mkToken user.id) user,
         { users := s.users ++ [user], nextId := s.nextId + 1 })
  else (.badRequest errs, s)

/-- `POST /auth/login` (auth.js lines 79-125): sanitize, validate, look
the user up by email with the hash selected, compare the password, and
answer 200 with a token (the user is serialized without the hash). -/
def loginHandler (b : LoginBody) (s : AuthState) : AuthResult :=
  let emailRaw := jsTrim (b.email.getD "")
  let password := b.password.getD ""
  let errs := loginValidationErrors emailRaw password
  if errs.isEmpty then
    let email := normalizeEmail emailRaw
    match s.users.find? (fun u => u.email == email) with
    | none => .unauthorized "Invalid email or password."
    | some u =>
        if comparePassword u.password password then .ok (mkToken u.id) u
        else .unauthorized "Invalid email or password."
  else .badRequest errs

/-- Outcome of the password-change handler. -/
inductive ChangeResult where
  | ok (message : String)
  | badRequest (errors : List FieldError)
  | wrongPassword (error : String)
  | serverError (error : String)
deriving DecidableEq, Repr

/-- HTTP status code of a password-change outcome, as the handler sets
it: the wrong-current-password branch answers 400 with a single error
message. -/
def ChangeResult.statusCode : ChangeResult → Nat
  | .ok _ => 200
  | .badRequest _ => 400
  | .wrongPassword _ => 400
  | .serverError _ => 500

/-- `PUT /users/password` (users.js lines 66-101): validate, fetch the
caller with the hash selected, reject a wrong current password with 400
and no mutation, otherwise store the re-hashed new password (`user.save`
runs the schema pre-save bcrypt hook).  A vanished user makes
`user.comparePassword` throw, which the catch maps to 500. -/
def changePasswordHandler (uid : Nat) (b : PasswordBody) (s : AuthState) :
    ChangeResult × AuthState :=
  let current := b.currentPassword.getD ""
  let newPw := b.newPassword.getD ""
  let errs := passwordValidationErrors current newPw
  if errs.isEmpty then
    match s.users.find? (fun u => u.id == uid) with
    | none => (.serverError "Failed to change password.", s)
    | some u =>
        if comparePassword u.password current then
          (.ok "Password updated successfully.",
           { s with users :=
               replaceFirst (fun v => v.id == uid) { u with password := hashPw newPw } s.users })
        else (.wrongPassword "Current password is incorrect.", s)
  else (.badRequest errs, s)

/- ## Task store operations -/

/-- Modelled from the spec: `Task.create` of the missing
`models/Task.js` schema (spec section 3: status defaults `todo`,
priority defaults `medium`, tags deduplicated with at most 5, due date
optional).  `none` is a schema validation/cast failure, which the route
catch maps to 500.  The owner comes from the handler argument: the route
spreads `...req.body` first and then sets `user: req.user._id`
(tasks.js lines 90-93), so a client-supplied `user` is overridden. -/
def taskCreate (uid id now : Nat) (b : TaskBody) : Option Task :=
  if ((b.tags.getD []).eraseDups).length > 5 then none
  else
    match (match b.status with | none => some Status.todo | some x => statusOfString x),
          (match b.priority with | none => some Priority.medium | some x => priorityOfString x) with
    | some st, some pr =>
        some { id := id, user := uid, title := b.title.getD "",
               description := b.description, status := st, priority := pr,
               dueDate := b.dueDate, tags := (b.tags.getD []).eraseDups,
               createdAt := now, updatedAt := now }
    | _, _ => none

/-- Modelled from the spec for the schema parts: the document update that
`findOneAndUpdate(filter, req.body, { new: true, runValidators: true })`
(tasks.js lines 140-144) applies to the matched task.  Supplied fields
are `$set`; omitted fields keep their values; tags are deduplicated and
bounded by 5 by the schema (`none` = schema validation failure, mapped to
500 by the catch).  The owning user reference is immutable after creation
(spec section 3), so a client-supplied `user` field does not change
ownership; `updatedAt` is refreshed by the schema timestamps. -/
def applyUpdate (now : Nat) (b : TaskBody) (t : Task) : Option Task :=
  if ((b.tags.map List.eraseDups).getD t.tags).length > 5 then none
  else
    match (match b.status with | none => some t.status | some x => statusOfString x),
          (match b.priority with | none => some t.priority | some x => priorityOfString x) with
    | some st, some pr =>
        some { t with title := b.title.getD t.title,
                      description := (match b.description with
                                      | some d => some d
                                      | none => t.description),
                      status := st, priority := pr,
                      dueDate := (match b.dueDate with
                                  | some d => some d
                                  | none => t.dueDate),
                      tags := (b.tags.map List.eraseDups).getD t.tags, updatedAt := now }
    | _, _ => none

/-- Outcome of the single-task handlers. -/
inductive TaskResult where
  | ok (task : Task)
  | created (task : Task)
  | deleted (message : String)
  | notFound (error : String)
  | badRequest (errors : List FieldError)
  | serverError (error : String)
deriving DecidableEq, Repr

/-- HTTP status code of a task outcome, as the handlers set it. -/
def TaskResult.statusCode : TaskResult → Nat
  | .ok _ => 200
  | .created _ => 201
  | .deleted _ => 200
  | .notFound _ => 404
  | .badRequest _ => 400
  | .serverError _ => 500

/-- `POST /tasks` (tasks.js lines 66-99): validate, then create with the
owner stamped from the authenticated identity. -/
def createTaskHandler (uid now : Nat) (b : TaskBody) (s : TaskState) :
    TaskResult × TaskState :=
  let b := sanitizeTaskBody b
  let errs := createValidationErrors b
  if errs.isEmpty then
    match taskCreate uid s.nextId now b with
    | none => (.serverError "Failed to create task.", s)
    | some t => (.created t, { tasks := s.tasks ++ [t], nextId := s.nextId + 1 })
  else (.badRequest errs, s)

/-- `GET /tasks/:id` (tasks.js lines 104-114): `findOne` on
`{ _id, user }`; a miss (absent id or foreign owner alike) answers 404
with the same body. -/
def getTaskHandler (uid tid : Nat) (s : TaskState) : TaskResult :=
  match s.tasks.find? (fun t => t.id == tid && t.user == uid) with
  | none => .notFound "Task not found."
  | some t => .ok t

/-- `PUT /tasks/:id` (tasks.js lines 119-153): validate, then
`findOneAndUpdate` on `{ _id, user }` with the request body; a miss
answers the same 404 as get/delete. -/
def updateTaskHandler (uid tid now : Nat) (b : TaskBody) (s : TaskState) :
    TaskResult × TaskState :=
  let b := sanitizeTaskBody b
  let errs := updateValidationErrors b
  if errs.isEmpty then
    match s.tasks.find? (fun t => t.id == tid && t.user == uid) with
    | none => (.notFound "Task not found.", s)
    | some t =>
        match applyUpdate now b t with
        | none => (.serverError "Failed to update task.", s)
        | some t' =>
            (.ok t',
             { s with tasks := replaceFirst (fun x => x.id == tid && x.user == uid) t' s.tasks })
  else (.badRequest errs, s)

/-- `DELETE /tasks/:id` (tasks.js lines 158-168): `findOneAndDelete` on
`{ _id, user }`; a miss answers the same 404 as get/update. -/
def deleteTaskHandler (uid tid : Nat) (s : TaskState) : TaskResult × TaskState :=
  match s.tasks.find? (fun t => t.id == tid && t.user == uid) with
  | none => (.notFound "Task not found.", s)
  | some _ =>
      (.deleted "Task deleted successfully.",
       { s with tasks := removeFirst (fun t => t.id == tid && t.user == uid) s.tasks })

/- ## Task listing -/

/-- Query string of `GET /tasks`.  Numeric parameters arrive as strings
in Express; they are modelled post-coercion as naturals.  (`page=0` and
`limit=0` are excluded from the modelled domain: JavaScript would turn
them into a negative skip, rejected server-side, and a division by zero;
no claim involves them.) -/
structure ListQuery where
  status : Option String := none
  priority : Option String := none
  search : Option String := none
  page : Option Nat := none
  limit : Option Nat := none
  sortBy : Option String := none
  order : Option String := none
deriving DecidableEq, Repr

/-- Validator chain of `GET /tasks` (tasks.js lines 13-21).  The list
handler never calls `validationResult`, so this list is computed but not
consulted (unlike the create and update handlers). -/
def listValidationErrors (q : ListQuery) : List FieldError :=
  (match q.status with
   | none => []
   | some x => if (statusOfString x).isNone then [⟨"status", "Invalid value"⟩] else [])
    ++ (match q.priority with
        | none => []
        | some x => if (priorityOfString x).isNone then [⟨"priority", "Invalid value"⟩] else [])
    ++ (match q.page with
        | none => []
        | some p => if p < 1 then [⟨"page", "Invalid value"⟩] else [])
    ++ (match q.limit with
        | none => []
        | some l => if l < 1 || l > 100 then [⟨"limit", "Invalid value"⟩] else [])
    ++ (match q.sortBy with
        | none => []
        | some x => if !(x == "createdAt" || x == "dueDate" || x == "priority" || x == "title")
                    then [⟨"sortBy", "Invalid value"⟩] else [])
    ++ (match q.order with
        | none => []
        | some x => if !(x == "asc" || x == "desc") then [⟨"order", "Invalid value"⟩] else [])

/-- Status filter: `if (status) filter.status = status` — an absent or
empty (falsy) value filters nothing; otherwise equality against the
stored status string. -/
def taskStatusMatches (status : Option String) (t : Task) : Bool :=
  match status with
  | none => true
  | some x => if strEmpty x then true else statusToString t.status == x

/-- Priority filter, same shape as the status filter. -/
def taskPriorityMatches (priority : Option String) (t : Task) : Bool :=
  match priority with
  | none => true
  | some x => if strEmpty x then true else priorityToString t.priority == x

/-- Compile the `search` parameter the way the handler builds its
`$or` regex filter: absent or empty (falsy) search means no filter
(`some none`); otherwise the raw string is compiled as a pattern, and
`none` is the SyntaxError that `new RegExp(search, 'i')` raises. -/
def compileSearch : Option String → Option (Option (List RTok))
  | none => some none
  | some x => if strEmpty x then some none else (compileRegex (lowerStr x).toList).map some

/-- The `$or` search filter (tasks.js lines 30-34): the pattern against
the title, the description, or any tag; a regex does not match an absent
description. -/
def taskSearchMatches (pat : Option (List RTok)) (t : Task) : Bool :=
  match pat with
  | none => true
  | some ts =>
      regexTest ts t.title
        || (match t.description with
            | some d => regexTest ts d
            | none => false)
        || t.tags.any (regexTest ts)

/-- One field comparison for MongoDB `sort`: `createdAt`/`dueDate`/
`priority`/`title` keys; `priority` is a stored string, so the order is
lexicographic; an absent `dueDate` sorts lowest; any other key leaves
the order unchanged (all documents tie on a missing field). -/
def taskFieldLe (sortBy : String) (a b : Task) : Bool :=
  if sortBy == "createdAt" then decide (a.createdAt ≤ b.createdAt)
  else if sortBy == "dueDate" then
    (match a.dueDate, b.dueDate with
     | none, _ => true
     | some _, none => false
     | some x, some y => decide (x ≤ y))
  else if sortBy == "priority" then
    decide (priorityToString a.priority ≤ priorityToString b.priority)
  else if sortBy == "title" then decide (a.title ≤ b.title)
  else true

/-- The sort direction: `order === 'asc' ? 1 : -1`. -/
def taskLe (sortBy order : String) (a b : Task) : Bool :=
  if order == "asc" then taskFieldLe sortBy a b else taskFieldLe sortBy b a

/-- Insert into a sorted list (stable: an equal element goes after the
ones already present when `le` is total). -/
def insertLe (le : α → α → Bool) (x : α) : List α → List α
  | [] => [x]
  | y :: ys => if le x y then x :: y :: ys else y :: insertLe le x ys

/-- Insertion sort modelling the MongoDB `sort` stage. -/
def sortLe (le : α → α → Bool) : List α → List α
  | [] => []
  | x :: xs => insertLe le x (sortLe le xs)

/-- `Math.ceil(total / limit)` on naturals (for `limit ≥ 1`). -/
def ceilNat (a b : Nat) : Nat := (a + b - 1) / b

/-- The `pagination` object of the list response. -/
structure Pagination where
  total : Nat
  page : Nat
  pages : Nat
  limit : Nat
deriving DecidableEq, Repr

/-- The 200 payload of the list response. -/
structure ListOk where
  tasks : List Task
  pagination : Pagination
deriving DecidableEq, Repr

/-- Outcome of the list handler.  `internalError` is the 500 response of
the catch block (tasks.js lines 57-59); `uncaught` is an exception
raised before the `try` — the handler produces no response (Express 4
does not route an async rejection to the error middleware). -/
inductive ListResult where
  | ok (payload : ListOk)
  | internalError (error : String)
  | uncaught
deriving DecidableEq, Repr

/-- The tasks of a list outcome (empty when no payload was produced). -/
def ListResult.tasksOr : ListResult → List Task
  | .ok payload => payload.tasks
  | _ => []

/-- The filter the list handler sends to `countDocuments` and `find`
(tasks.js lines 26-35), applied to the store: owner scoping plus the
optional status, priority and search conditions. -/
def listFiltered (uid : Nat) (q : ListQuery) (pat : Option (List RTok))
    (s : TaskState) : List Task :=
  s.tasks.filter (fun t =>
    t.user == uid && taskStatusMatches q.status t
      && taskPriorityMatches q.priority t && taskSearchMatches pat t)

/-- The filtered tasks in `sort` order (tasks.js lines 37-43). -/
def listSorted (uid : Nat) (q : ListQuery) (pat : Option (List RTok))
    (s : TaskState) : List Task :=
  sortLe (taskLe (q.sortBy.getD "createdAt") (q.order.getD "desc"))
    (listFiltered uid q pat s)

/-- `GET /tasks` (tasks.js lines 10-61): build the filter (the `search`
regex construction can throw here, outside the `try`), count, sort,
skip/limit.  `validationResult` is never consulted, so
`listValidationErrors` does not appear below.  The store operations
themselves are total in this model, so the catch branch producing
`internalError` is never taken. -/
def listHandler (uid : Nat) (q : ListQuery) (s : TaskState) : ListResult :=
  match compileSearch (q.search.map jsTrim) with
  | none => .uncaught
  | some pat =>
      let total := (listFiltered uid q pat s).length
      .ok { tasks := ((listSorted uid q pat s).drop
                ((q.page.getD 1 - 1) * q.limit.getD 10)).take (q.limit.getD 10),
            pagination := { total := total, page := q.page.getD 1,
                            pages := ceilNat total (q.limit.getD 10),
                            limit := q.limit.getD 10 } }

/- ## Stats summary -/

/-- The `summary` object of `GET /tasks/stats/summary` (todo,
in-progress, done, total). -/
structure StatusSummary where
  todo : Nat
  inProgress : Nat
  done : Nat
  total : Nat
deriving DecidableEq, Repr

/-- The `priority` object of `GET /tasks/stats/summary`. -/
structure PrioritySummary where
  low : Nat
  medium : Nat
  high : Nat
deriving DecidableEq, Repr

/-- The `$group` stage on `$status`: one `(status, count)` entry per
status value present among the matched tasks. -/
def statusGroups (ts : List Task) : List (Status × Nat) :=
  [Status.todo, Status.inProgress, Status.done].filterMap fun st =>
    if ts.countP (fun t => t.status == st) = 0 then none
    else some (st, ts.countP (fun t => t.status == st))

/-- The `$group` stage on `$priority`. -/
def priorityGroups (ts : List Task) : List (Priority × Nat) :=
  [Priority.low, Priority.medium, Priority.high].filterMap fun pr =>
    if ts.countP (fun t => t.priority == pr) = 0 then none
    else some (pr, ts.countP (fun t => t.priority == pr))

/-- The `forEach` over the status groups (tasks.js lines 191-194): each
present group overwrites its key and adds its count to `total`. -/
def statusFold (acc : StatusSummary) (g : Status × Nat) : StatusSummary :=
  let acc := { acc with total := acc.total + g.2 }
  match g.1 with
  | .todo => { acc with todo := g.2 }
  | .inProgress => { acc with inProgress := g.2 }
  | .done => { acc with done := g.2 }

/-- The `forEach` over the priority groups: each group overwrites its
key. -/
def priorityFold (acc : PrioritySummary) (g : Priority × Nat) : PrioritySummary :=
  match g.1 with
  | .low => { acc with low := g.2 }
  | .medium => { acc with medium := g.2 }
  | .high => { acc with high := g.2 }

/-- `GET /tasks/stats/summary` (tasks.js lines 173-203): two aggregations
matched on the owner; the summary starts at zero for every key. -/
def statsHandler (uid : Nat) (s : TaskState) : StatusSummary × PrioritySummary :=
  let mine := s.tasks.filter (fun t => t.user == uid)
  ((statusGroups mine).foldl statusFold ⟨0, 0, 0, 0⟩,
   (priorityGroups mine).foldl priorityFold ⟨0, 0, 0⟩)

/- ## Mutating operations as a transition system (for the ownership
invariant) -/

/-- A mutating task-API call, tagged with the authenticated caller
resolved by the auth middleware. -/
inductive Op where
  | createOp (uid now : Nat) (b : TaskBody)
  | updateOp (uid tid now : Nat) (b : TaskBody)
  | deleteOp (uid tid : Nat)
deriving Repr

/-- The state transition of one call. -/
def applyOp : Op → TaskState → TaskState
  | .createOp uid now b, s => (createTaskHandler uid now b s).2
  | .updateOp uid tid now b, s => (updateTaskHandler uid tid now b s).2
  | .deleteOp uid tid, s => (deleteTaskHandler uid tid s).2

/-- The state after a sequence of calls. -/
def applyOps (ops : List Op) (s : TaskState) : TaskState :=
  ops.foldl (fun st op => applyOp op st) s

/-- The owner of the task with a given id, if present. -/
def userOf (s : TaskState) (tid : Nat) : Option Nat :=
  (s.tasks.find? (fun t => t.id == tid)).map (·.user)

/-- Store well-formedness: ids are distinct (MongoDB `_id` uniqueness)
and below the generator counter. -/
def WFState (s : TaskState) : Prop :=
  (s.tasks.map (·.id)).Nodup ∧ ∀ t ∈ s.tasks, t.id < s.nextId

instance WFState.decidable (s : TaskState) : Decidable (WFState s) :=
  inferInstanceAs (Decidable (_ ∧ _))

/- ## Helper lemmas -/

theorem find?_append_none {p : α → Bool} {l₁ : List α} (l₂ : List α)
    (h : l₁.find? p = none) : (l₁ ++ l₂).find? p = l₂.find? p := by
  induction l₁ with
  | nil => simp
  | cons x xs ih =>
      rw [List.find?_cons] at h
      cases hx : p x with
      | true => simp [hx] at h
      | false =>
          simp only [List.cons_append, List.find?_cons, hx]
          exact ih (by simpa [hx] using h)

theorem find?_append_some {p : α → Bool} {l₁ : List α} {a : α} (l₂ : List α)
    (h : l₁.find? p = some a) : (l₁ ++ l₂).find? p = some a := by
  induction l₁ with
  | nil => simp at h
  | cons x xs ih =>
      rw [List.find?_cons] at h
      cases hx : p x with
      | true => simp_all [List.find?_cons]
      | false =>
          simp only [List.cons_append, List.find?_cons, hx]
          exact ih (by simpa [hx] using h)

theorem removeFirst_sublist (p : α → Bool) (l : List α) :
    List.Sublist (removeFirst p l) l := by
  induction l with
  | nil => simp [removeFirst]
  | cons x xs ih =>
      unfold removeFirst
      split
      · exact List.sublist_cons_of_sublist x (List.Sublist.refl xs)
      · exact List.Sublist.cons₂ x ih

theorem mem_removeFirst {p : α → Bool} {l : List α} {a : α}
    (h : a ∈ removeFirst p l) : a ∈ l :=
  (removeFirst_sublist p l).mem h

theorem mem_replaceFirst {p : α → Bool} {x : α} {l : List α} {a : α}
    (h : a ∈ replaceFirst p x l) : a ∈ l ∨ a = x := by
  induction l with
  | nil => simp [replaceFirst] at h
  | cons y ys ih =>
      unfold replaceFirst at h
      split at h
      · rcases List.mem_cons.mp h with h1 | h1
        · exact Or.inr h1
        · exact Or.inl (List.mem_cons_of_mem y h1)
      · rcases List.mem_cons.mp h with h1 | h1
        · exact Or.inl (h1 ▸ List.mem_cons_self y ys)
        · rcases ih h1 with h2 | h2
          · exact Or.inl (List.mem_cons_of_mem y h2)
          · exact Or.inr h2

theorem replaceFirst_map_id {p : Task → Bool} {x : Task} {l : List Task}
    (h : ∀ y, p y = true → y.id = x.id) :
    (replaceFirst p x l).map (·.id) = l.map (·.id) := by
  induction l with
  | nil => rfl
  | cons y ys ih =>
      unfold replaceFirst
      split
      · next hy => simp [h y hy]
      · simp [ih]

theorem find?_user_replaceFirst (p : Task → Bool) (x : Task) (tid : Nat)
    (l : List Task) (h : ∀ y, p y = true → y.id = x.id ∧ y.user = x.user) :
    ((replaceFirst p x l).find? (fun t => t.id == tid)).map (·.user)
      = (l.find? (fun t => t.id == tid)).map (·.user) := by
  induction l with
  | nil => rfl
  | cons y ys ih =>
      unfold replaceFirst
      split
      · next hy =>
          obtain ⟨hid, huser⟩ := h y hy
          by_cases htid : y.id = tid
          · simp [List.find?_cons, hid ▸ htid, htid, huser]
          · have : x.id ≠ tid := hid ▸ htid
            simp [List.find?_cons, htid, this]
      · by_cases htid : y.id = tid
        · simp [List.find?_cons, htid]
        · simpa [List.find?_cons, htid] using ih

theorem find?_user_removeFirst (p : Task → Bool) (tid : Nat)
    (l : List Task) (hnd : (l.map (·.id)).Nodup) :
    ((removeFirst p l).find? (fun t => t.id == tid)).map (·.user)
        = ((l.find? (fun t => t.id == tid)).map (·.user))
      ∨ ((removeFirst p l).find? (fun t => t.id == tid)) = none := by
  induction l with
  | nil => simp [removeFirst]
  | cons y ys ih =>
      simp only [List.map_cons, List.nodup_cons] at hnd
      obtain ⟨hy, hys⟩ := hnd
      unfold removeFirst
      split
      · by_cases htid : y.id = tid
        · refine Or.inr (List.find?_eq_none.mpr fun t ht => ?_)
          have : t.id ≠ y.id := fun hc => hy (hc ▸ List.mem_map_of_mem (·.id) ht)
          simp [htid ▸ this]
        · exact Or.inl (by simp [List.find?_cons, htid])
      · by_cases htid : y.id = tid
        · simp [List.find?_cons, htid]
        · simpa [List.find?_cons, htid] using ih hys

theorem find?_removeFirst_id_none (tid uid : Nat) (l : List Task)
    (hnd : (l.map (·.id)).Nodup) :
    (removeFirst (fun t => t.id == tid && t.user == uid) l).find?
        (fun t => t.id == tid && t.user == uid) = none ∨
      l.find? (fun t => t.id == tid && t.user == uid) = none := by
  induction l with
  | nil => simp [removeFirst]
  | cons y ys ih =>
      simp only [List.map_cons, List.nodup_cons] at hnd
      obtain ⟨hy, hys⟩ := hnd
      unfold removeFirst
      split
      · next hmatch =>
          have hid : y.id = tid := by
            have h2 := hmatch
            simp only [Bool.and_eq_true, beq_iff_eq] at h2
            exact h2.1
          refine Or.inl (List.find?_eq_none.mpr fun t ht => ?_)
          have : t.id ≠ y.id := fun hc => hy (hc ▸ List.mem_map_of_mem (·.id) ht)
          simp [hid ▸ this]
      · next hmatch =>
          rcases ih hys with h | h
          · exact Or.inl (by simpa [List.find?_cons, hmatch] using h)
          · exact Or.inr (by simpa [List.find?_cons, hmatch] using h)

theorem mem_insertLe {le : α → α → Bool} {x a : α} {l : List α}
    (h : a ∈ insertLe le x l) : a = x ∨ a ∈ l := by
  induction l with
  | nil => simpa [insertLe] using h
  | cons y ys ih =>
      unfold insertLe at h
      split at h
      · rcases List.mem_cons.mp h with h1 | h1
        · exact Or.inl h1
        · exact Or.inr h1
      · rcases List.mem_cons.mp h with h1 | h1
        · exact Or.inr (h1 ▸ List.mem_cons_self y ys)
        · rcases ih h1 with h2 | h2
          · exact Or.inl h2
          · exact Or.inr (List.mem_cons_of_mem y h2)

theorem mem_sortLe {le : α → α → Bool} {a : α} {l : List α}
    (h : a ∈ sortLe le l) : a ∈ l := by
  induction l with
  | nil => simp [sortLe] at h
  | cons y ys ih =>
      unfold sortLe at h
      rcases mem_insertLe h with h1 | h1
      · exact h1 ▸ List.mem_cons_self y ys
      · exact List.mem_cons_of_mem y (ih h1)

theorem length_insertLe (le : α → α → Bool) (x : α) (l : List α) :
    (insertLe le x l).length = l.length + 1 := by
  induction l with
  | nil => rfl
  | cons y ys ih =>
      unfold insertLe
      split
      · simp
      · simp [ih]

theorem length_sortLe (le : α → α → Bool) (l : List α) :
    (sortLe le l).length = l.length := by
  induction l with
  | nil => rfl
  | cons y ys ih =>
      unfold sortLe
      rw [length_insertLe, ih]
      rfl

theorem applyUpdate_frame {now : Nat} {b : TaskBody} {t t' : Task}
    (h : applyUpdate now b t = some t') :
    t'.id = t.id ∧ t'.user = t.user ∧ t'.createdAt = t.createdAt := by
  unfold applyUpdate at h
  split at h
  · exact absurd h (by simp)
  · split at h
    · injection h with h
      subst h
      exact ⟨rfl, rfl, rfl⟩
    · exact absurd h (by simp)

theorem taskCreate_fields {uid id now : Nat} {b : TaskBody} {t : Task}
    (h : taskCreate uid id now b = some t) :
    t.id = id ∧ t.user = uid := by
  unfold taskCreate at h
  split at h
  · exact absurd h (by simp)
  · split at h
    · injection h with h
      subst h
      exact ⟨rfl, rfl⟩
    · exact absurd h (by simp)

/- ## Claim C2 -/

/-- Claim C2: for every owner identity and task id, get, update and
delete answer the same `404 Task not found.` both when no task has the
id and when the task belongs to a different user (the hypothesis `hmiss`
covers both cases at once, so the response value cannot depend on which
one holds), the state is unchanged, and a second delete of the same id
answers `404` — in particular deleting an already-deleted task id is
`NotFound`, not success. -/
theorem c2_notFound_uniform (s : TaskState) (uid tid now : Nat) (b : TaskBody)
    (hv : updateValidationErrors (sanitizeTaskBody b) = [])
    (hmiss : ∀ t ∈ s.tasks, ¬(t.id = tid ∧ t.user = uid)) :
    getTaskHandler uid tid s = .notFound "Task not found."
      ∧ updateTaskHandler uid tid now b s = (.notFound "Task not found.", s)
      ∧ deleteTaskHandler uid tid s = (.notFound "Task not found.", s)
      ∧ (TaskResult.notFound "Task not found.").statusCode = 404
      ∧ ∀ s' : TaskState, (s'.tasks.map (·.id)).Nodup →
          (deleteTaskHandler uid tid (deleteTaskHandler uid tid s').2).1
            = .notFound "Task not found." := by
  have hfind : s.tasks.find? (fun t => t.id == tid && t.user == uid) = none := by
    refine List.find?_eq_none.mpr fun x hx => ?_
    have := hmiss x hx
    simp only [Bool.and_eq_true, beq_iff_eq]
    tauto
  refine ⟨by simp [getTaskHandler, hfind],
          by simp [updateTaskHandler, hv, hfind],
          by simp [deleteTaskHandler, hfind],
          rfl,
          fun s' hnd => ?_⟩
  unfold deleteTaskHandler
  cases hf1 : s'.tasks.find? (fun t => t.id == tid && t.user == uid) with
  | none => simp [deleteTaskHandler, hf1]
  | some t0 =>
      simp only
      rcases find?_removeFirst_id_none tid uid s'.tasks hnd with h | h
      · simp [deleteTaskHandler, h]
      · rw [hf1] at h
        exact absurd h (by simp)

/-- Store for the C2 witness: one task owned by user 2. -/
def c2State : TaskState := ⟨[{ id := 0, user := 2, title := "other" }], 1⟩

/-- Witness for C2: user 1 requesting task 0 (owned by user 2). -/
theorem c2_notFound_uniform_witness :
    getTaskHandler 1 0 c2State = .notFound "Task not found."
      ∧ updateTaskHandler 1 0 7 {} c2State = (.notFound "Task not found.", c2State)
      ∧ deleteTaskHandler 1 0 c2State = (.notFound "Task not found.", c2State)
      ∧ (TaskResult.notFound "Task not found.").statusCode = 404
      ∧ (deleteTaskHandler 1 0 (deleteTaskHandler 1 0 c2State).2).1
          = .notFound "Task not found." := by
  have h := c2_notFound_uniform c2State 1 0 7 {} (by rfl) (by decide)
  exact ⟨h.1, h.2.1, h.2.2.1, h.2.2.2.1, h.2.2.2.2 c2State (by decide)⟩

/- ## Claim C4 -/

/-- Body for the C4 counterexample: a valid title and six tags. -/
def c4Body : TaskBody := { title := some "a", tags := some ["1", "2", "3", "4", "5", "6"] }

/-- Empty store for the C4 counterexample. -/
def c4State : TaskState := ⟨[], 0⟩

/-- Counterexample to claim C4 as stated: a create request with six tags
(violating the spec's tags-at-most-5 constraint) passes the route's
validator chain — `tags` is only checked with `optional().isArray()`
(tasks.js line 78) — so it is *not* rejected with a field-level
ValidationError; it reaches the store and comes back as a 500 server
error. -/
theorem c4_counterexample :
    createValidationErrors (sanitizeTaskBody c4Body) = []
      ∧ createTaskHandler 1 0 c4Body c4State
          = (.serverError "Failed to create task.", c4State)
      ∧ (TaskResult.serverError "Failed to create task.").statusCode = 500 := by
  refine ⟨by decide, by decide, rfl⟩

/-- `strEmpty` holds exactly on the empty character list. -/
theorem strEmpty_of_len_pos {s : String} (h : 0 < strLen s) : strEmpty s = false := by
  unfold strEmpty
  unfold strLen at h
  cases hl : s.toList with
  | nil => rw [hl] at h; simp at h
  | cons c cs => simp

/-- Claim C4 (amended): creation validates title presence and length
(≤ 100 after trim), description length (≤ 500 after trim) and due-date
format at field level, rejecting a violation with the field-level error
list and no state change; the tags-at-most-5 bound, however, is only
enforced by the store schema, so a request with more than 5 distinct
tags passes route validation and is rejected as a 500 server error —
also with no task record created — rather than as a field-level
ValidationError. -/
theorem c4_create_validation (uid now : Nat) (b : TaskBody) (s : TaskState) :
    (createValidationErrors (sanitizeTaskBody b) ≠ [] →
        createTaskHandler uid now b s
          = (.badRequest (createValidationErrors (sanitizeTaskBody b)), s))
      ∧ (createValidationErrors (sanitizeTaskBody b) = [] →
          ((b.tags.getD []).eraseDups).length > 5 →
          createTaskHandler uid now b s = (.serverError "Failed to create task.", s))
      ∧ (b.title = none →
          FieldError.mk "title" "Title is required"
            ∈ createValidationErrors (sanitizeTaskBody b))
      ∧ (∀ ttl, b.title = some ttl → 100 < strLen (jsTrim ttl) →
          FieldError.mk "title" "Title cannot exceed 100 characters"
            ∈ createValidationErrors (sanitizeTaskBody b))
      ∧ (∀ d, b.description = some d → 500 < strLen (jsTrim d) →
          FieldError.mk "description" "Invalid value"
            ∈ createValidationErrors (sanitizeTaskBody b))
      ∧ (∀ d, b.dueDate = some d → isISO8601 d = false →
          FieldError.mk "dueDate" "Invalid date format"
            ∈ createValidationErrors (sanitizeTaskBody b)) := by
  refine ⟨fun h => ?_, fun hval htags => ?_, fun h => ?_, fun ttl h hlen => ?_,
          fun d h hlen => ?_, fun d h hiso => ?_⟩
  · unfold createTaskHandler
    cases hE : createValidationErrors (sanitizeTaskBody b) with
    | nil => exact absurd hE h
    | cons e es => simp [hE]
  · have htags' : (((sanitizeTaskBody b).tags.getD []).eraseDups).length > 5 := htags
    unfold createTaskHandler taskCreate
    simp [hval, htags']
  · simp [createValidationErrors, sanitizeTaskBody, h, strEmpty]
  · have hne := strEmpty_of_len_pos (s := jsTrim ttl) (by omega)
    simp [createValidationErrors, sanitizeTaskBody, h, hne, hlen]
  · simp only [createValidationErrors, sanitizeTaskBody, h, Option.map_some]
    simp [hlen]
  · simp only [createValidationErrors, sanitizeTaskBody, h]
    simp [hiso]

/-- Witness for C4 (amended): an empty title is rejected at field level
with no state change, six tags produce the 500 path, a missing title and
a malformed due date are flagged. -/
theorem c4_create_validation_witness :
    (createTaskHandler 1 0 { title := some "" } c4State
        = (.badRequest (createValidationErrors (sanitizeTaskBody { title := some "" })), c4State))
      ∧ createTaskHandler 1 0 c4Body c4State
          = (.serverError "Failed to create task.", c4State)
      ∧ FieldError.mk "title" "Title is required"
          ∈ createValidationErrors (sanitizeTaskBody ({} : TaskBody))
      ∧ FieldError.mk "dueDate" "Invalid date format"
          ∈ createValidationErrors (sanitizeTaskBody { title := some "x", dueDate := some "tomorrow" }) := by
  refine ⟨(c4_create_validation 1 0 { title := some "" } c4State).1 (by decide),
          (c4_create_validation 1 0 c4Body c4State).2.1 (by decide) (by decide),
          (c4_create_validation 1 0 {} c4State).2.2.1 rfl,
          (c4_create_validation 1 0 { title := some "x", dueDate := some "tomorrow" } c4State).2.2.2.2.2
            "tomorrow" rfl (by decide)⟩

/- ## Claim C5 -/

/-- Query for C5: `limit=1000`, far above the declared `[1,100]` bound. -/
def c5Query : ListQuery := { limit := some 1000 }

/-- Store for C5: two tasks of user 1. -/
def c5State : TaskState :=
  ⟨[{ id := 0, user := 1, title := "a", createdAt := 1 },
    { id := 1, user := 1, title := "b", createdAt := 2 }], 2⟩

/-- Claim C5 (settled against the code): the `GET /tasks` route declares
validators for page, limit, sortField, sortDirection, status and
priority (tasks.js lines 13-21), and `limit=1000` is indeed flagged by
that chain — but the handler never calls `validationResult`, so the
request is executed against the store anyway: the response is a 200
payload with the out-of-range limit, not a validation rejection.  The
same happens for an out-of-enum status, which simply matches nothing. -/
theorem c5_list_validators_unchecked :
    listValidationErrors c5Query = [⟨"limit", "Invalid value"⟩]
      ∧ listHandler 1 c5Query c5State
          = .ok { tasks := [{ id := 1, user := 1, title := "b", createdAt := 2 },
                            { id := 0, user := 1, title := "a", createdAt := 1 }],
                  pagination := { total := 2, page := 1, pages := 1, limit := 1000 } }
      ∧ listValidationErrors { status := some "bogus" } = [⟨"status", "Invalid value"⟩]
      ∧ listHandler 1 { status := some "bogus" } c5State
          = .ok { tasks := [],
                  pagination := { total := 0, page := 1, pages := 0, limit := 10 } } := by
  refine ⟨by decide, by decide, by decide, by decide⟩

/- ## Claim C10 -/

/-- Literal case-insensitive search over title, description and tags.
This follows the spec's words for the search feature and exists to be
compared against the regex semantics the handler actually uses. -/
def literalTaskMatches (search : String) (t : Task) : Bool :=
  literalContains t.title search
    || (match t.description with
        | some d => literalContains d search
        | none => false)
    || t.tags.any (fun tg => literalContains tg search)

/-- Store for C10: one task of user 1 titled `aaa`. -/
def c10State : TaskState := ⟨[{ id := 0, user := 1, title := "aaa", createdAt := 1 }], 1⟩

/-- Counterexample to claim C10 as stated: searching with the invalid
pattern `(` does not produce the handler's Internal-error (500) response
— the `new RegExp` throw happens while the filter is being built, before
the `try` block (tasks.js line 33 versus line 40), so the operation dies
as an uncaught exception and no response is produced at all. -/
theorem c10_counterexample :
    listHandler 1 { search := some "(" } c10State
        ≠ .internalError "Failed to fetch tasks."
      ∧ listHandler 1 { search := some "(" } c10State = .uncaught := by
  refine ⟨by decide, by decide⟩

/-- Claim C10 (amended): the search string is interpreted as a regular
expression, not as a literal substring — searching `a+` returns the task
titled `aaa`, which literal matching would not return — and a
syntactically invalid pattern such as `(` makes the list operation fail
without returning a result; the failure is an exception thrown before
the handler's try/catch (an uncaught rejection), not the catch block's
Internal-error response. -/
theorem c10_regex_semantics :
    (∀ (uid : Nat) (q : ListQuery) (s : TaskState),
        compileSearch (q.search.map jsTrim) = none → listHandler uid q s = .uncaught)
      ∧ compileSearch (some "(") = none
      ∧ (listHandler 1 { search := some "a+" } c10State).tasksOr
          = [{ id := 0, user := 1, title := "aaa", createdAt := 1 }]
      ∧ c10State.tasks.filter (fun t => t.user == 1 && literalTaskMatches "a+" t) = []
      ∧ listHandler 1 { search := some "(" } c10State = .uncaught := by
  refine ⟨fun uid q s h => ?_, by decide, by decide, by decide, by decide⟩
  unfold listHandler
  simp [h]

/-- Witness for C10 (amended): the uncaught-failure clause applied to a
concrete invalid pattern on an empty store. -/
theorem c10_regex_semantics_witness :
    listHandler 2 { search := some "[" } ⟨[], 0⟩ = .uncaught :=
  c10_regex_semantics.1 2 { search := some "[" } ⟨[], 0⟩ (by decide)

/- ## Claim C9 -/

/-- Claim C9: a valid partial update on an existing task has patch
semantics — each supplied field takes the (sanitized) supplied value,
each omitted field keeps its prior value, the identity fields are
untouched, the updated record is returned, and the store change is
exactly the in-place replacement of the matched task. -/
theorem c9_update_patch (uid tid now : Nat) (b : TaskBody) (s : TaskState)
    (t t' : Task)
    (hv : updateValidationErrors (sanitizeTaskBody b) = [])
    (hfind : s.tasks.find? (fun x => x.id == tid && x.user == uid) = some t)
    (happ : applyUpdate now (sanitizeTaskBody b) t = some t') :
    updateTaskHandler uid tid now b s
        = (.ok t',
           { s with tasks := replaceFirst (fun x => x.id == tid && x.user == uid) t' s.tasks })
      ∧ t'.title = (sanitizeTaskBody b).title.getD t.title
      ∧ (b.title = none → t'.title = t.title)
      ∧ t'.description = (match (sanitizeTaskBody b).description with
                          | some d => some d
                          | none => t.description)
      ∧ (b.description = none → t'.description = t.description)
      ∧ (b.status = none → t'.status = t.status)
      ∧ (∀ x st, b.status = some x → statusOfString x = some st → t'.status = st)
      ∧ (b.priority = none → t'.priority = t.priority)
      ∧ (∀ x pr, b.priority = some x → priorityOfString x = some pr → t'.priority = pr)
      ∧ t'.dueDate = (match b.dueDate with
                      | some d => some d
                      | none => t.dueDate)
      ∧ (b.tags = none → t'.tags = t.tags)
      ∧ (∀ tg, b.tags = some tg → t'.tags = tg.eraseDups)
      ∧ t'.id = t.id ∧ t'.user = t.user ∧ t'.createdAt = t.createdAt := by
  refine ⟨by unfold updateTaskHandler; simp [hv, hfind, happ], ?_⟩
  unfold applyUpdate at happ
  split at happ
  · exact absurd happ (by simp)
  · split at happ
    · next st pr heq1 heq2 =>
        injection happ with happ
        subst happ
        refine ⟨rfl, ?_, rfl, ?_, ?_, ?_, ?_, ?_, rfl, ?_, ?_, rfl, rfl, rfl⟩
        · intro h
          simp [sanitizeTaskBody, h]
        · intro h
          simp [sanitizeTaskBody, h]
        · intro h
          simp only [sanitizeTaskBody, h] at heq1
          exact (Option.some.inj heq1).symm
        · intro x stx hx hparse
          simp only [sanitizeTaskBody, hx] at heq1
          rw [hparse] at heq1
          exact (Option.some.inj heq1).symm
        · intro h
          simp only [sanitizeTaskBody, h] at heq2
          exact (Option.some.inj heq2).symm
        · intro x prx hx hparse
          simp only [sanitizeTaskBody, hx] at heq2
          rw [hparse] at heq2
          exact (Option.some.inj heq2).symm
        · intro h
          simp [sanitizeTaskBody, h]
        · intro tg htg
          simp [sanitizeTaskBody, htg]
    · exact absurd happ (by simp)

/-- Store for the C9 witness. -/
def c9State : TaskState :=
  ⟨[{ id := 0, user := 1, title := "old", description := some "d",
      status := .todo, priority := .low, tags := ["x"],
      createdAt := 1, updatedAt := 1 }], 1⟩

/-- The task of the C9 witness before the update. -/
def c9Before : Task :=
  { id := 0, user := 1, title := "old", description := some "d",
    status := .todo, priority := .low, tags := ["x"],
    createdAt := 1, updatedAt := 1 }

/-- The task of the C9 witness after updating title and status only. -/
def c9After : Task :=
  { id := 0, user := 1, title := "new", description := some "d",
    status := .done, priority := .low, tags := ["x"],
    createdAt := 1, updatedAt := 9 }

/-- Witness for C9: updating `{title: "new", status: "done"}` changes
exactly those two fields and returns the updated record. -/
theorem c9_update_patch_witness :
    updateTaskHandler 1 0 9 { title := some "new", status := some "done" } c9State
        = (.ok c9After,
           { c9State with tasks := replaceFirst (fun x => x.id == 0 && x.user == 1) c9After c9State.tasks })
      ∧ c9After.description = c9Before.description
      ∧ c9After.priority = c9Before.priority
      ∧ c9After.tags = c9Before.tags
      ∧ c9After.user = c9Before.user := by
  have h := c9_update_patch 1 0 9 { title := some "new", status := some "done" }
    c9State c9Before c9After (by decide) (by decide) (by decide)
  exact ⟨h.1, h.2.2.2.2.1 rfl, h.2.2.2.2.2.2.2.1 rfl, h.2.2.2.2.2.2.2.2.2.2.1 rfl,
         h.2.2.2.2.2.2.2.2.2.2.2.2.2.1⟩

/- ## Claim C8 -/

/-- Claim C8: a password change whose current password is wrong fails
(400, single error message) and leaves the store untouched, so the old
password still logs in; a correct current password persists the
re-hashed new password. -/
theorem c8_change_password (s : AuthState) (uid : Nat) (u : User)
    (p0 current newPw : String)
    (hfind : s.users.find? (fun v => v.id == uid) = some u)
    (hp0 : u.password = hashPw p0)
    (hv : passwordValidationErrors current newPw = []) :
    (current ≠ p0 →
        changePasswordHandler uid { currentPassword := some current, newPassword := some newPw } s
          = (.wrongPassword "Current password is incorrect.", s))
      ∧ (ChangeResult.wrongPassword "Current password is incorrect.").statusCode = 400
      ∧ (s.users.find? (fun v => v.email == normalizeEmail (jsTrim u.email)) = some u →
          loginValidationErrors (jsTrim u.email) p0 = [] →
          loginHandler { email := some u.email, password := some p0 } s
            = .ok (mkToken u.id) u)
      ∧ (current = p0 →
          changePasswordHandler uid { currentPassword := some current, newPassword := some newPw } s
            = (.ok "Password updated successfully.",
               { s with users :=
                   replaceFirst (fun v => v.id == uid) { u with password := hashPw newPw } s.users })) := by
  refine ⟨fun hne => ?_, rfl, fun hemail hlv => ?_, fun hcur => ?_⟩
  · have hcmp : comparePassword u.password current = false := by
      rw [hp0]
      simp only [comparePassword, hashPw]
      rw [beq_eq_false_iff_ne]
      simp only [ne_eq, Hash.mk.injEq]
      exact fun hc => hne hc.symm
    unfold changePasswordHandler
    simp [hv, hfind, hcmp]
  · have hcmp : comparePassword u.password p0 = true := by
      rw [hp0]
      simp [comparePassword]
    unfold loginHandler
    simp [hlv, hemail, hcmp]
  · have hcmp : comparePassword u.password current = true := by
      rw [hp0, hcur]
      simp [comparePassword]
    unfold changePasswordHandler
    simp [hv, hfind, hcmp]

/-- Users store for the C8 witness. -/
def c8State : AuthState :=
  ⟨[{ id := 5, name := "Ann", email := "ann@x.com", password := hashPw "old123" }], 6⟩

/-- The user of the C8 witness. -/
def c8User : User :=
  { id := 5, name := "Ann", email := "ann@x.com", password := hashPw "old123" }

/-- Witness for C8: a wrong current password is rejected with no
mutation and the old password still logs in; the right current password
persists the new hash. -/
theorem c8_change_password_witness :
    changePasswordHandler 5 { currentPassword := some "bad999", newPassword := some "new123" } c8State
        = (.wrongPassword "Current password is incorrect.", c8State)
      ∧ loginHandler { email := some "ann@x.com", password := some "old123" } c8State
          = .ok (mkToken 5) c8User
      ∧ changePasswordHandler 5 { currentPassword := some "old123", newPassword := some "new123" } c8State
          = (.ok "Password updated successfully.",
             { c8State with users :=
                 replaceFirst (fun v => v.id == 5) { c8User with password := hashPw "new123" } c8State.users }) := by
  have h := c8_change_password c8State 5 c8User "old123" "bad999" "new123"
    (by decide) rfl (by decide)
  have h2 := c8_change_password c8State 5 c8User "old123" "old123" "new123"
    (by decide) rfl (by decide)
  exact ⟨h.1 (by decide), h.2.2.1 (by decide) (by decide), h2.2.2.2 rfl⟩

/- ## Claim C3 -/

/-- A validator chain that reports no error has every condition false;
the parts shared with the login chain. -/
theorem register_valid_parts {name email password : String}
    (h : registerValidationErrors name email password = []) :
    strEmpty email = false ∧ isEmailStr email = true ∧ strEmpty password = false := by
  refine ⟨?_, ?_, ?_⟩
  · cases he : strEmpty email with
    | false => rfl
    | true => rw [registerValidationErrors] at h; simp [he] at h
  · cases he : isEmailStr email with
    | true => rfl
    | false => rw [registerValidationErrors] at h; simp [he] at h
  · cases he : strEmpty password with
    | false => rfl
    | true => rw [registerValidationErrors] at h; simp [he] at h

/-- The user document a successful registration creates. -/
def registeredUser (s : AuthState) (now : Nat) (name email password : String) : User :=
  { id := s.nextId, name := jsTrim name, email := normalizeEmail (jsTrim email),
    password := hashPw password, createdAt := now }

/-- Claim C3: for a registration body passing validation whose
(normalized) email is fresh, register answers 201 with a token and the
created user, the serialized user object carries no password field, and
logging in with the same raw email and password against the new state
answers 200 with the same user id (the same user document). -/
theorem c3_register_login (s : AuthState) (now : Nat) (name email password : String)
    (hv : registerValidationErrors (jsTrim name) (jsTrim email) password = [])
    (hfresh : ∀ u ∈ s.users, u.email ≠ normalizeEmail (jsTrim email)) :
    registerHandler now { name := some name, email := some email, password := some password } s
        = (.created (mkToken s.nextId) (registeredUser s now name email password),
           { users := s.users ++ [registeredUser s now name email password],
             nextId := s.nextId + 1 })
      ∧ (AuthResult.created (mkToken s.nextId) (registeredUser s now name email password)).statusCode = 201
      ∧ "password" ∉ (userJson (registeredUser s now name email password)).map Prod.fst
      ∧ loginHandler { email := some email, password := some password }
          (registerHandler now { name := some name, email := some email, password := some password } s).2
          = .ok (mkToken s.nextId) (registeredUser s now name email password)
      ∧ (AuthResult.ok (mkToken s.nextId) (registeredUser s now name email password)).statusCode = 200 := by
  obtain ⟨hemail_ne, hemail_ok, hpw_ne⟩ := register_valid_parts hv
  have hfind : s.users.find? (fun u => u.email == normalizeEmail (jsTrim email)) = none :=
    List.find?_eq_none.mpr fun u hu => by simp [hfresh u hu]
  have hreg : registerHandler now { name := some name, email := some email, password := some password } s
      = (.created (mkToken s.nextId) (registeredUser s now name email password),
         { users := s.users ++ [registeredUser s now name email password],
           nextId := s.nextId + 1 }) := by
    unfold registerHandler
    simp [hv, hfind, registeredUser, mkToken]
  refine ⟨hreg, rfl, by simp [userJson], ?_, rfl⟩
  rw [hreg]
  have hlv : loginValidationErrors (jsTrim email) password = [] := by
    unfold loginValidationErrors
    simp [hemail_ne, hemail_ok, hpw_ne]
  unfold loginHandler
  simp [hlv, hfind, comparePassword, registeredUser, mkToken]

/-- Witness for C3: registering Ann and logging back in. -/
theorem c3_register_login_witness :
    registerHandler 3 { name := some "Ann", email := some "ann@x.com", password := some "abc123" } ⟨[], 0⟩
        = (.created (mkToken 0) (registeredUser ⟨[], 0⟩ 3 "Ann" "ann@x.com" "abc123"),
           { users := [registeredUser ⟨[], 0⟩ 3 "Ann" "ann@x.com" "abc123"], nextId := 1 })
      ∧ "password" ∉ (userJson (registeredUser ⟨[], 0⟩ 3 "Ann" "ann@x.com" "abc123")).map Prod.fst
      ∧ loginHandler { email := some "ann@x.com", password := some "abc123" }
          (registerHandler 3 { name := some "Ann", email := some "ann@x.com", password := some "abc123" } ⟨[], 0⟩).2
          = .ok (mkToken 0) (registeredUser ⟨[], 0⟩ 3 "Ann" "ann@x.com" "abc123") := by
  have h := c3_register_login ⟨[], 0⟩ 3 "Ann" "ann@x.com" "abc123" (by decide) (by simp)
  exact ⟨by simpa using h.1, h.2.2.1, h.2.2.2.1⟩

/- ## Claim C7 -/

/-- Every task has exactly one of the three statuses. -/
theorem status_count_partition (ts : List Task) :
    ts.countP (fun t => t.status == Status.todo)
        + ts.countP (fun t => t.status == Status.inProgress)
        + ts.countP (fun t => t.status == Status.done) = ts.length := by
  induction ts with
  | nil => rfl
  | cons t ts ih =>
      cases h : t.status <;> simp [List.countP_cons, h] <;> omega

/-- Every task has exactly one of the three priorities. -/
theorem priority_count_partition (ts : List Task) :
    ts.countP (fun t => t.priority == Priority.low)
        + ts.countP (fun t => t.priority == Priority.medium)
        + ts.countP (fun t => t.priority == Priority.high) = ts.length := by
  induction ts with
  | nil => rfl
  | cons t ts ih =>
      cases h : t.priority <;> simp [List.countP_cons, h] <;> omega

/-- Folding the status groups yields the per-status counts, with `total`
their sum (a status with no tasks contributes no group and keeps its 0). -/
theorem statusGroups_foldl (ts : List Task) :
    (statusGroups ts).foldl statusFold ⟨0, 0, 0, 0⟩
      = ⟨ts.countP (fun t => t.status == Status.todo),
         ts.countP (fun t => t.status == Status.inProgress),
         ts.countP (fun t => t.status == Status.done),
         ts.countP (fun t => t.status == Status.todo)
           + ts.countP (fun t => t.status == Status.inProgress)
           + ts.countP (fun t => t.status == Status.done)⟩ := by
  unfold statusGroups
  simp only [List.filterMap_cons, List.filterMap_nil]
  by_cases h1 : ts.countP (fun t => t.status == Status.todo) = 0 <;>
    by_cases h2 : ts.countP (fun t => t.status == Status.inProgress) = 0 <;>
      by_cases h3 : ts.countP (fun t => t.status == Status.done) = 0 <;>
        simp [h1, h2, h3, statusFold]

/-- Folding the priority groups yields the per-priority counts. -/
theorem priorityGroups_foldl (ts : List Task) :
    (priorityGroups ts).foldl priorityFold ⟨0, 0, 0⟩
      = ⟨ts.countP (fun t => t.priority == Priority.low),
         ts.countP (fun t => t.priority == Priority.medium),
         ts.countP (fun t => t.priority == Priority.high)⟩ := by
  unfold priorityGroups
  simp only [List.filterMap_cons, List.filterMap_nil]
  by_cases h1 : ts.countP (fun t => t.priority == Priority.low) = 0 <;>
    by_cases h2 : ts.countP (fun t => t.priority == Priority.medium) = 0 <;>
      by_cases h3 : ts.countP (fun t => t.priority == Priority.high) = 0 <;>
        simp [h1, h2, h3, priorityFold]

/-- Claim C7: the stats summary reports one count per status and per
priority (a status or priority with no tasks reports 0 through its
present key), the status counts and the priority counts each sum to
`total`, `total` is the number of the owner's tasks, and it equals the
total of an unfiltered list call for the same owner. -/
theorem c7_stats_summary (uid : Nat) (s : TaskState) :
    (statsHandler uid s).1.todo
        = (s.tasks.filter (fun t => t.user == uid)).countP (fun t => t.status == Status.todo)
      ∧ (statsHandler uid s).1.inProgress
          = (s.tasks.filter (fun t => t.user == uid)).countP (fun t => t.status == Status.inProgress)
      ∧ (statsHandler uid s).1.done
          = (s.tasks.filter (fun t => t.user == uid)).countP (fun t => t.status == Status.done)
      ∧ (statsHandler uid s).1.todo + (statsHandler uid s).1.inProgress
          + (statsHandler uid s).1.done = (statsHandler uid s).1.total
      ∧ (statsHandler uid s).2.low + (statsHandler uid s).2.medium
          + (statsHandler uid s).2.high = (statsHandler uid s).1.total
      ∧ (statsHandler uid s).1.total = (s.tasks.filter (fun t => t.user == uid)).length
      ∧ (∀ pl, listHandler uid {} s = .ok pl →
          pl.pagination.total = (statsHandler uid s).1.total)
      ∧ ((s.tasks.filter (fun t => t.user == uid)).countP (fun t => t.status == Status.done) = 0 →
          (statsHandler uid s).1.done = 0) := by
  have hs := statusGroups_foldl (s.tasks.filter (fun t => t.user == uid))
  have hp := priorityGroups_foldl (s.tasks.filter (fun t => t.user == uid))
  have hstats : statsHandler uid s
      = ((statusGroups (s.tasks.filter (fun t => t.user == uid))).foldl statusFold ⟨0, 0, 0, 0⟩,
         (priorityGroups (s.tasks.filter (fun t => t.user == uid))).foldl priorityFold ⟨0, 0, 0⟩) := rfl
  rw [hstats, hs, hp]
  have hpart := status_count_partition (s.tasks.filter (fun t => t.user == uid))
  have hppart := priority_count_partition (s.tasks.filter (fun t => t.user == uid))
  refine ⟨rfl, rfl, rfl, rfl, hppart.trans hpart.symm, ?_, ?_, ?_⟩
  · exact hpart
  · intro pl hpl
    unfold listHandler at hpl
    simp only [compileSearch, Option.map] at hpl
    injection hpl with hpl
    have hfil : s.tasks.filter (fun t =>
        t.user == uid && taskStatusMatches none t && taskPriorityMatches none t
          && taskSearchMatches none t) = s.tasks.filter (fun t => t.user == uid) := by
      refine List.filter_congr fun t ht => ?_
      simp [taskStatusMatches, taskPriorityMatches, taskSearchMatches]
    rw [← hpl]
    simp only [listFiltered, hfil]
    exact hpart.symm
  · intro h
    simp [h]

/-- Store for the C7 witness: user 1 has two done tasks and one todo,
user 2 has one task. -/
def c7State : TaskState :=
  ⟨[{ id := 0, user := 1, title := "a", status := .done, priority := .low, createdAt := 1 },
    { id := 1, user := 1, title := "b", status := .done, priority := .high, createdAt := 2 },
    { id := 2, user := 1, title := "c", status := .todo, priority := .high, createdAt := 3 },
    { id := 3, user := 2, title := "d", status := .inProgress, createdAt := 4 }], 4⟩

/-- Witness for C7 at a concrete store (there `in-progress` has no task
for user 1 and reports 0). -/
theorem c7_stats_summary_witness :
    (statsHandler 1 c7State).1.todo + (statsHandler 1 c7State).1.inProgress
        + (statsHandler 1 c7State).1.done = (statsHandler 1 c7State).1.total
      ∧ (statsHandler 1 c7State).2.low + (statsHandler 1 c7State).2.medium
          + (statsHandler 1 c7State).2.high = (statsHandler 1 c7State).1.total
      ∧ (statsHandler 1 c7State).1.total = (c7State.tasks.filter (fun t => t.user == 1)).length
      ∧ (listHandler 1 {} c7State).tasksOr.length = 3
      ∧ ∀ pl, listHandler 1 {} c7State = .ok pl →
          pl.pagination.total = (statsHandler 1 c7State).1.total := by
  have h := c7_stats_summary 1 c7State
  exact ⟨h.2.2.2.1, h.2.2.2.2.1, h.2.2.2.2.2.1, by decide, fun pl hpl => h.2.2.2.2.2.2.1 pl hpl⟩

/- ## Claim C6 -/

/-- `Math.ceil(0 / k) = 0`. -/
theorem ceilNat_zero (k : Nat) : ceilNat 0 k = 0 := by
  unfold ceilNat
  cases k with
  | zero => rfl
  | succ m => exact Nat.div_eq_of_lt (by omega)

/-- Peeling one page off the ceiling division. -/
theorem ceilNat_succ {n k : Nat} (hn : 0 < n) (hk : 0 < k) :
    ceilNat n k = ceilNat (n - k) k + 1 := by
  unfold ceilNat
  rcases le_or_lt n k with h | h
  · have h1 : n - k = 0 := Nat.sub_eq_zero_of_le h
    rw [h1]
    have h2 : n + k - 1 = (n - 1) + k := by omega
    rw [h2, Nat.add_div_right _ hk, Nat.div_eq_of_lt (by omega),
        Nat.div_eq_of_lt (by omega)]
  · have h2 : n + k - 1 = (n - 1) + k := by omega
    have h3 : (n - k) + k - 1 = (n - k - 1) + k := by omega
    have h4 : n - 1 = (n - k - 1) + k := by omega
    rw [h2, Nat.add_div_right _ hk, h3, Nat.add_div_right _ hk, h4,
        Nat.add_div_right _ hk]

/-- Concatenating the `ceil(length / k)` pages of size `k` restores the
list: offset pagination partitions the rows, each row on exactly one
page. -/
theorem flatten_pages (k : Nat) (hk : 0 < k) :
    ∀ (n : Nat) (l : List α), l.length = n →
      ((List.range (ceilNat l.length k)).map
          (fun p => (l.drop (p * k)).take k)).flatten = l := by
  intro n
  induction n using Nat.strong_induction_on with
  | _ n ih =>
      intro l hl
      cases l with
      | nil => simp [ceilNat_zero]
      | cons x xs =>
          have hpos : 0 < (x :: xs).length := by simp
          rw [ceilNat_succ hpos hk, List.range_succ_eq_map, List.map_cons,
              List.map_map, List.flatten_cons]
          have hmap : ((List.range (ceilNat ((x :: xs).length - k) k)).map
                ((fun p => (((x :: xs).drop (p * k)).take k)) ∘ (· + 1)))
              = (List.range (ceilNat (((x :: xs).drop k).length) k)).map
                  (fun p => ((((x :: xs).drop k).drop (p * k)).take k)) := by
            rw [List.length_drop]
            refine List.map_congr_left fun p hp => ?_
            simp only [Function.comp_apply]
            rw [Nat.succ_mul, ← List.drop_drop, List.drop_drop, List.drop_drop,
                Nat.add_comm]
          rw [hmap,
              ih (((x :: xs).drop k).length)
                (by rw [List.length_drop]; omega) _ rfl]
          rw [Nat.zero_mul, List.drop_zero, List.take_append_drop]

/-- Claim C6: for a fixed owner and filter, the list response satisfies
`pages = ceil(total / pageSize)` with `limit = pageSize`, the reported
`total` is the number of tasks matching the filter, and walking pages
`1..pages` with the same page size concatenates back to exactly the
sorted matching list — so every matching task appears on exactly one
page and the page sizes sum to `total`. -/
theorem c6_pagination (uid : Nat) (q : ListQuery) (s : TaskState)
    (pat : Option (List RTok))
    (hk : 0 < q.limit.getD 10)
    (hc : compileSearch (q.search.map jsTrim) = some pat) :
    (∀ pl, listHandler uid q s = .ok pl →
        pl.pagination.pages = ceilNat pl.pagination.total (q.limit.getD 10)
          ∧ pl.pagination.total = (listFiltered uid q pat s).length
          ∧ pl.pagination.limit = q.limit.getD 10)
      ∧ ((List.range (ceilNat (listSorted uid q pat s).length (q.limit.getD 10))).map
            (fun p => (listHandler uid { q with page := some (p + 1) } s).tasksOr)).flatten
          = listSorted uid q pat s
      ∧ ((List.range (ceilNat (listSorted uid q pat s).length (q.limit.getD 10))).map
            (fun p => ((listHandler uid { q with page := some (p + 1) } s).tasksOr).length)).sum
          = (listFiltered uid q pat s).length := by
  have hpage : ∀ p : Nat, (listHandler uid { q with page := some (p + 1) } s).tasksOr
      = ((listSorted uid q pat s).drop (p * q.limit.getD 10)).take (q.limit.getD 10) := by
    intro p
    unfold listHandler
    rw [show compileSearch ((({ q with page := some (p + 1) } : ListQuery)).search.map jsTrim)
          = some pat from hc]
    have hq : ∀ pat₂, listSorted uid { q with page := some (p + 1) } pat₂ s
        = listSorted uid q pat₂ s := fun pat₂ => rfl
    simp [ListResult.tasksOr, hq]
  have hflat : ((List.range (ceilNat (listSorted uid q pat s).length (q.limit.getD 10))).map
        (fun p => (listHandler uid { q with page := some (p + 1) } s).tasksOr)).flatten
      = listSorted uid q pat s := by
    rw [List.map_congr_left fun p hp => hpage p]
    exact flatten_pages (q.limit.getD 10) hk (listSorted uid q pat s).length _ rfl
  refine ⟨fun pl hpl => ?_, hflat, ?_⟩
  · unfold listHandler at hpl
    rw [hc] at hpl
    injection hpl with hpl
    subst hpl
    exact ⟨rfl, rfl, rfl⟩
  · have hlen : ((List.range (ceilNat (listSorted uid q pat s).length (q.limit.getD 10))).map
          (fun p => ((listHandler uid { q with page := some (p + 1) } s).tasksOr).length)).sum
        = (((List.range (ceilNat (listSorted uid q pat s).length (q.limit.getD 10))).map
            (fun p => (listHandler uid { q with page := some (p + 1) } s).tasksOr)).map
              List.length).sum := by
      rw [List.map_map]
      rfl
    rw [hlen, ← List.length_flatten, hflat]
    exact (length_sortLe _ _)

/-- Query for the C6 witness: page size 2, ascending creation order. -/
def c6Query : ListQuery := { limit := some 2, order := some "asc" }

/-- Store for the C6 witness: five tasks of user 1. -/
def c6State : TaskState :=
  ⟨[{ id := 0, user := 1, title := "a", createdAt := 1 },
    { id := 1, user := 1, title := "b", createdAt := 2 },
    { id := 2, user := 1, title := "c", createdAt := 3 },
    { id := 3, user := 1, title := "d", createdAt := 4 },
    { id := 4, user := 1, title := "e", createdAt := 5 }], 5⟩

/-- Witness for C6: five tasks at page size 2 make 3 pages whose
concatenation is the sorted matching list; the first page reports
`total = 5`, `pages = 3 = ceil(5/2)`, `limit = 2`. -/
theorem c6_pagination_witness :
    ((List.range (ceilNat (listSorted 1 c6Query none c6State).length 2)).map
          (fun p => (listHandler 1 { c6Query with page := some (p + 1) } c6State).tasksOr)).flatten
        = listSorted 1 c6Query none c6State
      ∧ ((List.range (ceilNat (listSorted 1 c6Query none c6State).length 2)).map
            (fun p => ((listHandler 1 { c6Query with page := some (p + 1) } c6State).tasksOr).length)).sum
          = (listFiltered 1 c6Query none c6State).length
      ∧ ∀ pl, listHandler 1 c6Query c6State = .ok pl →
          pl.pagination.pages = ceilNat pl.pagination.total 2
            ∧ pl.pagination.total = (listFiltered 1 c6Query none c6State).length
            ∧ pl.pagination.limit = 2 := by
  have h := c6_pagination 1 c6Query c6State none (by decide) (by decide)
  exact ⟨h.2.1, h.2.2, h.1⟩

/- ## Claim C1 -/

/-- Inversion of the update handler: the state is unchanged, or the
first `{_id, user}` match was rewritten by `applyUpdate`. -/
theorem updateTaskHandler_state (uid tid now : Nat) (b : TaskBody) (s : TaskState) :
    (updateTaskHandler uid tid now b s).2 = s
      ∨ ∃ t t', s.tasks.find? (fun x => x.id == tid && x.user == uid) = some t
          ∧ applyUpdate now (sanitizeTaskBody b) t = some t'
          ∧ (updateTaskHandler uid tid now b s).2
              = { s with tasks := replaceFirst (fun x => x.id == tid && x.user == uid) t' s.tasks } := by
  unfold updateTaskHandler
  by_cases hE : updateValidationErrors (sanitizeTaskBody b) = []
  · rcases hfind : s.tasks.find? (fun x => x.id == tid && x.user == uid) with _ | t
    · simp [hE, hfind]
    · rcases happ : applyUpdate now (sanitizeTaskBody b) t with _ | t'
      · simp [hE, hfind, happ]
      · exact Or.inr ⟨t, t', hfind, happ, by simp [hE, hfind, happ]⟩
  · have h2 : (updateValidationErrors (sanitizeTaskBody b)).isEmpty = false := by
      cases hE2 : updateValidationErrors (sanitizeTaskBody b) with
      | nil => exact absurd hE2 hE
      | cons a as => rfl
    simp [h2]

/-- Inversion of the delete handler: the state is unchanged or the first
`{_id, user}` match was removed. -/
theorem deleteTaskHandler_state (uid tid : Nat) (s : TaskState) :
    (deleteTaskHandler uid tid s).2 = s
      ∨ (deleteTaskHandler uid tid s).2
          = { s with tasks := removeFirst (fun t => t.id == tid && t.user == uid) s.tasks } := by
  unfold deleteTaskHandler
  rcases hfind : s.tasks.find? (fun t => t.id == tid && t.user == uid) with _ | t
  · simp [hfind]
  · simp [hfind]

/-- Inversion of the create handler: the state is unchanged or a task
with the fresh id, owned by the authenticated caller, was appended. -/
theorem createTaskHandler_state (uid now : Nat) (b : TaskBody) (s : TaskState) :
    (createTaskHandler uid now b s).2 = s
      ∨ ∃ t, t.id = s.nextId ∧ t.user = uid
          ∧ (createTaskHandler uid now b s).2
              = { tasks := s.tasks ++ [t], nextId := s.nextId + 1 } := by
  unfold createTaskHandler
  by_cases hE : createValidationErrors (sanitizeTaskBody b) = []
  · rcases hc : taskCreate uid s.nextId now (sanitizeTaskBody b) with _ | t
    · simp [hE, hc]
    · obtain ⟨h1, h2⟩ := taskCreate_fields hc
      exact Or.inr ⟨t, h1, h2, by simp [hE, hc]⟩
  · have h2 : (createValidationErrors (sanitizeTaskBody b)).isEmpty = false := by
      cases hE2 : createValidationErrors (sanitizeTaskBody b) with
      | nil => exact absurd hE2 hE
      | cons a as => rfl
    simp [h2]

/-- The invariant carried across a run: the store is well-formed and the
task `tid` either still has owner `u` or is gone — and in the latter
case its id stays below the generator, so it can never be recreated. -/
def OwnerInv (tid u : Nat) (s : TaskState) : Prop :=
  WFState s ∧ (userOf s tid = some u ∨ (userOf s tid = none ∧ tid < s.nextId))

/-- One mutating call preserves the ownership invariant. -/
theorem ownerInv_applyOp (op : Op) (s : TaskState) (tid u : Nat)
    (h : OwnerInv tid u s) : OwnerInv tid u (applyOp op s) := by
  obtain ⟨⟨hnd, hbound⟩, hcase⟩ := h
  cases op with
  | createOp uid now b =>
      show OwnerInv tid u (createTaskHandler uid now b s).2
      rcases createTaskHandler_state uid now b s with heq | ⟨t, htid, huser, heq⟩
      · rw [heq]; exact ⟨⟨hnd, hbound⟩, hcase⟩
      · rw [heq]
        have hto : t.id ∉ s.tasks.map (·.id) := by
          rw [htid]
          intro hmem
          obtain ⟨x, hx, hxid⟩ := List.mem_map.mp hmem
          exact absurd (hxid ▸ hbound x hx) (by omega)
        refine ⟨⟨?_, ?_⟩, ?_⟩
        · rw [List.map_append]
          rw [List.nodup_append]
          exact ⟨hnd, List.nodup_singleton _, by
            intro a ha hb
            simp only [List.map_cons, List.map_nil, List.mem_singleton] at hb
            exact hto (hb ▸ ha)⟩
        · intro x hx
          rcases List.mem_append.mp hx with hx | hx
          · exact Nat.lt_succ_of_lt (hbound x hx)
          · simp only [List.mem_singleton] at hx
            rw [hx, htid]
            exact Nat.lt_succ_self _
        · rcases hcase with hsome | ⟨hnone, hlt⟩
          · left
            unfold userOf at hsome ⊢
            obtain ⟨w, hw, hwu⟩ := Option.map_eq_some'.mp hsome
            rw [find?_append_some _ hw]
            simp [hwu]
          · right
            unfold userOf at hnone ⊢
            have hfn : s.tasks.find? (fun t => t.id == tid) = none := by
              cases hf : s.tasks.find? (fun t => t.id == tid) with
              | none => rfl
              | some w => rw [hf] at hnone; simp at hnone
            rw [find?_append_none _ hfn]
            constructor
            · have : (t.id == tid) = false := by
                simp only [beq_eq_false_iff_ne, ne_eq]
                omega
              simp [List.find?_cons, this]
            · simpa using Nat.lt_succ_of_lt hlt
  | updateOp uid tid₂ now b =>
      show OwnerInv tid u (updateTaskHandler uid tid₂ now b s).2
      rcases updateTaskHandler_state uid tid₂ now b s with heq | ⟨t, t', hfind, happ, heq⟩
      · rw [heq]; exact ⟨⟨hnd, hbound⟩, hcase⟩
      · obtain ⟨hid, huser, _⟩ := applyUpdate_frame happ
        have hpt := List.find?_some hfind
        simp only [Bool.and_eq_true, beq_iff_eq] at hpt
        have hmatch : ∀ y : Task, (y.id == tid₂ && y.user == uid) = true →
            y.id = t'.id ∧ y.user = t'.user := by
          intro y hy
          simp only [Bool.and_eq_true, beq_iff_eq] at hy
          rw [hid, huser, hpt.1, hpt.2]
          exact ⟨hy.1, hy.2⟩
        rw [heq]
        refine ⟨⟨?_, ?_⟩, ?_⟩
        · rw [replaceFirst_map_id fun y hy => (hmatch y hy).1]
          exact hnd
        · intro x hx
          rcases mem_replaceFirst hx with hx | hx
          · exact hbound x hx
          · have hb := hbound t (List.mem_of_find?_eq_some hfind)
            rw [hx, hid]
            exact hb
        · have hpres := find?_user_replaceFirst
            (fun x : Task => x.id == tid₂ && x.user == uid) t' tid s.tasks hmatch
          unfold userOf at hcase ⊢
          simp only
          rw [hpres]
          exact hcase
  | deleteOp uid tid₂ =>
      show OwnerInv tid u (deleteTaskHandler uid tid₂ s).2
      rcases deleteTaskHandler_state uid tid₂ s with heq | heq
      · rw [heq]; exact ⟨⟨hnd, hbound⟩, hcase⟩
      · rw [heq]
        have hsub := removeFirst_sublist (fun t => t.id == tid₂ && t.user == uid) s.tasks
        refine ⟨⟨(hsub.map (·.id)).nodup hnd, fun x hx => hbound x (hsub.mem hx)⟩, ?_⟩
        have hlt : tid < s.nextId := by
          rcases hcase with hsome | ⟨_, hlt⟩
          · unfold userOf at hsome
            obtain ⟨w, hw, _⟩ := Option.map_eq_some'.mp hsome
            have := List.find?_some hw
            simp only [beq_iff_eq] at this
            exact this ▸ hbound w (List.mem_of_find?_eq_some hw)
          · exact hlt
        rcases find?_user_removeFirst
            (fun t : Task => t.id == tid₂ && t.user == uid) tid s.tasks hnd with hsame | hgone
        · unfold userOf at hcase ⊢
          simp only
          rw [hsame]
          rcases hcase with hsome | ⟨hnone, _⟩
          · exact Or.inl hsome
          · exact Or.inr ⟨hnone, hlt⟩
        · right
          unfold userOf
          simp only [hgone, Option.map_none]
          exact ⟨rfl, hlt⟩

/-- The invariant survives any sequence of mutating calls. -/
theorem ownerInv_applyOps (ops : List Op) (s : TaskState) (tid u : Nat)
    (h : OwnerInv tid u s) : OwnerInv tid u (applyOps ops s) := by
  induction ops generalizing s with
  | nil => exact h
  | cons op ops ih => exact ih (applyOp op s) (ownerInv_applyOp op s tid u h)

/-- Claim C1: over any sequence of API calls on a well-formed store, a
task's owning user reference never changes — the task either keeps its
owner (whatever the bodies supplied, a `user` field included) or has
been deleted — and no read or write path yields a task owned by another
user: a successful update or get returns a task owned by the caller, a
list returns only the caller's tasks, and a successful delete removed a
task owned by the caller. -/
theorem c1_owner_immutable (ops : List Op) (s : TaskState) (tid u : Nat)
    (hwf : WFState s) (hu : userOf s tid = some u) :
    (userOf (applyOps ops s) tid = some u ∨ userOf (applyOps ops s) tid = none)
      ∧ (∀ (uid tid₂ now : Nat) (b : TaskBody) (s₂ : TaskState) (t' : Task),
          (updateTaskHandler uid tid₂ now b s₂).1 = .ok t' → t'.user = uid)
      ∧ (∀ (uid tid₂ : Nat) (s₂ : TaskState) (t : Task),
          getTaskHandler uid tid₂ s₂ = .ok t → t.user = uid)
      ∧ (∀ (uid : Nat) (q : ListQuery) (s₂ : TaskState) (pl : ListOk),
          listHandler uid q s₂ = .ok pl → ∀ t ∈ pl.tasks, t.user = uid)
      ∧ (∀ (uid tid₂ : Nat) (s₂ : TaskState),
          (deleteTaskHandler uid tid₂ s₂).1 = .deleted "Task deleted successfully." →
          ∃ t ∈ s₂.tasks, t.id = tid₂ ∧ t.user = uid) := by
  refine ⟨?_, ?_, ?_, ?_, ?_⟩
  · have hinv := ownerInv_applyOps ops s tid u ⟨hwf, Or.inl hu⟩
    rcases hinv.2 with hsome | ⟨hnone, _⟩
    · exact Or.inl hsome
    · exact Or.inr hnone
  · intro uid tid₂ now b s₂ t' h
    unfold updateTaskHandler at h
    by_cases hE : updateValidationErrors (sanitizeTaskBody b) = []
    · rcases hfind : s₂.tasks.find? (fun x => x.id == tid₂ && x.user == uid) with _ | t
      · simp [hE, hfind] at h
      · rcases happ : applyUpdate now (sanitizeTaskBody b) t with _ | t''
        · simp [hE, hfind, happ] at h
        · simp only [hE, List.isEmpty_nil, if_true, hfind, happ] at h
          injection h with h
          subst h
          have := List.find?_some hfind
          simp only [Bool.and_eq_true, beq_iff_eq] at this
          exact (applyUpdate_frame happ).2.1.trans this.2
    · have h2 : (updateValidationErrors (sanitizeTaskBody b)).isEmpty = false := by
        cases hE2 : updateValidationErrors (sanitizeTaskBody b) with
        | nil => exact absurd hE2 hE
        | cons a as => rfl
      simp [h2] at h
  · intro uid tid₂ s₂ t h
    unfold getTaskHandler at h
    rcases hfind : s₂.tasks.find? (fun x => x.id == tid₂ && x.user == uid) with _ | w
    · rw [hfind] at h; simp at h
    · rw [hfind] at h
      injection h with h
      subst h
      have := List.find?_some hfind
      simp only [Bool.and_eq_true, beq_iff_eq] at this
      exact this.2
  · intro uid q s₂ pl h t ht
    unfold listHandler at h
    rcases hc : compileSearch (q.search.map jsTrim) with _ | pat
    · rw [hc] at h; simp at h
    · rw [hc] at h
      injection h with h
      subst h
      simp only at ht
      have h1 := List.mem_of_mem_take ht
      have h2 := List.mem_of_mem_drop h1
      unfold listSorted at h2
      have h3 := mem_sortLe h2
      unfold listFiltered at h3
      have h4 := List.mem_filter.mp h3
      have h5 := h4.2
      simp only [Bool.and_eq_true, beq_iff_eq] at h5
      exact h5.1.1.1
  · intro uid tid₂ s₂ h
    unfold deleteTaskHandler at h
    rcases hfind : s₂.tasks.find? (fun t => t.id == tid₂ && t.user == uid) with _ | t
    · rw [hfind] at h; simp at h
    · have := List.find?_some hfind
      simp only [Bool.and_eq_true, beq_iff_eq] at this
      exact ⟨t, List.mem_of_find?_eq_some hfind, this.1, this.2⟩

/-- Store for the C1 witness: task 0 owned by user 7. -/
def c1State : TaskState := ⟨[{ id := 0, user := 7, title := "t" }], 1⟩

/-- Call sequence for the C1 witness: the owner updates task 0 while
smuggling `user := 9` into the body, user 9 creates a task of their own,
then user 9 tries to delete task 0. -/
def c1Ops : List Op :=
  [.updateOp 7 0 5 { title := some "x", user := some 9 },
   .createOp 9 6 { title := some "y" },
   .deleteOp 9 0]

/-- Witness for C1: after the sequence, task 0 still exists or is gone
but never re-owned; concretely its owner is still user 7, and a
successful get by user 7 returns a task owned by user 7. -/
theorem c1_owner_immutable_witness :
    (userOf (applyOps c1Ops c1State) 0 = some 7
        ∨ userOf (applyOps c1Ops c1State) 0 = none)
      ∧ ({ id := 0, user := 7, title := "x", status := .todo, priority := .medium,
           dueDate := none, tags := [], createdAt := 0, updatedAt := 5 } : Task).user = 7 := by
  have h := c1_owner_immutable c1Ops c1State 0 7 (by decide) (by decide)
  refine ⟨h.1, ?_⟩
  exact h.2.2.1 7 0 (applyOps c1Ops c1State)
    { id := 0, user := 7, title := "x", status := .todo, priority := .medium,
      dueDate := none, tags := [], createdAt := 0, updatedAt := 5 } (by decide)

end TodoApp
